import Mathlib

/-!
Shallow embedding of the TDSC blog backend (FastAPI + MongoDB) for
specification checking.

Conventions of the embedding:
* MongoDB ObjectId values are modelled as natural numbers.  MongoDB
  guarantees uniqueness of the implicit `_id` index; theorems that rely on
  it take a `Nodup` hypothesis on the stored ids.
* `datetime.utcnow()` is modelled as an explicit clock parameter, in
  seconds, threaded through each operation.
* A MongoDB collection is a `List` of documents; `find_one` is
  `List.find?` with the same filter the source passes, `count_documents`
  is `List.filter` followed by `length`, `delete_one` / `update_one`
  remove / rewrite the first document matching the filter.
* The unique compound index on the votes collection, declared in
  `database.py` as `create_index [(user_id, 1), (post_slug, 1)] unique`,
  makes an insert of a second vote for the same (user, slug) pair fail
  with a duplicate-key error; `insertVote` models this.
* External libraries are abstracted: bcrypt becomes function parameters
  `hashpw` / `checkpw`, and the jose JWT library becomes the
  `BearerToken` / `jwt_decode` model below (signature check then expiry
  check, expiry strict: a token is rejected exactly when its exp claim is
  in the past).
-/

/-- A document of the users collection, as built by User.create_doc in
models/db_models.py. -/
structure UserDoc where
  id : Nat
  username : String
  email : String
  hashed_password : String
  created_at : Nat
deriving DecidableEq, Repr

/-- A document of the votes collection, as built by Vote.create_doc. -/
structure VoteDoc where
  id : Nat
  user_id : Nat
  post_slug : String
  vote_type : String
  created_at : Nat
  updated_at : Nat
deriving DecidableEq, Repr

/-- A document of the comments collection, as built by Comment.create_doc. -/
structure CommentDoc where
  id : Nat
  user_id : Nat
  post_slug : String
  text : String
  created_at : Nat
deriving DecidableEq, Repr

/-- The dict returned by get_current_user in routes/auth.py. -/
structure CurrentUser where
  id : Nat
  username : String
  email : String
  created_at : Nat
deriving DecidableEq, Repr

/-- An HTTPException: status code, detail, and the optional
WWW-Authenticate challenge header value. -/
structure HttpErr where
  status : Nat
  detail : String
  wwwAuthenticate : Option String
deriving DecidableEq, Repr

/-- A database-driver error escaping the route handler uncaught
(pymongo raises DuplicateKeyError when a unique index is violated). -/
inductive MongoErr
  | duplicateKey
deriving DecidableEq, Repr

/-- Vote.create_doc from models/db_models.py: created_at and updated_at
are both set to the current time; the fresh ObjectId is a parameter. -/
def Vote.create_doc (freshId user_id : Nat) (post_slug vote_type : String)
    (now : Nat) : VoteDoc :=
  { id := freshId, user_id := user_id, post_slug := post_slug,
    vote_type := vote_type, created_at := now, updated_at := now }

/-- User.create_doc from models/db_models.py. -/
def User.create_doc (freshId : Nat) (username email hashed_password : String)
    (now : Nat) : UserDoc :=
  { id := freshId, username := username, email := email,
    hashed_password := hashed_password, created_at := now }

/-- Comment.create_doc from models/db_models.py. -/
def Comment.create_doc (freshId user_id : Nat) (post_slug text : String)
    (now : Nat) : CommentDoc :=
  { id := freshId, user_id := user_id, post_slug := post_slug,
    text := text, created_at := now }

/-- The filter dict used on the votes collection by get_votes and
submit_vote in routes/engagement.py. -/
def pairPred (uid : Nat) (slug : String) (v : VoteDoc) : Bool :=
  v.post_slug == slug && v.user_id == uid

/-- All stored votes of one (user, slug) pair. -/
def votesFor (votes : List VoteDoc) (uid : Nat) (slug : String) : List VoteDoc :=
  votes.filter (pairPred uid slug)

/-- The response model of the vote routes. -/
structure VoteResponse where
  upvotes : Nat
  downvotes : Nat
  user_vote : Option String
deriving DecidableEq, Repr

/-- get_votes from routes/engagement.py: two count_documents queries and,
for an authenticated caller, a find_one for the caller's own vote. -/
def get_votes (votes : List VoteDoc) (slug : String)
    (current_user : Option CurrentUser) : VoteResponse :=
  let upvotes := (votes.filter
    (fun v => v.post_slug == slug && v.vote_type == "up")).length
  let downvotes := (votes.filter
    (fun v => v.post_slug == slug && v.vote_type == "down")).length
  let user_vote :=
    match current_user with
    | none => none
    | some cu =>
      match votes.find? (pairPred cu.id slug) with
      | none => none
      | some v => some v.vote_type
  ⟨upvotes, downvotes, user_vote⟩

/-- delete_one on the votes collection with filter on the id: removes the
first document with that id. -/
def deleteVoteOne : List VoteDoc → Nat → List VoteDoc
  | [], _ => []
  | v :: rest, i =>
    if v.id == i then rest else v :: deleteVoteOne rest i

/-- update_one on the votes collection with filter on the id, setting
vote_type and updated_at: rewrites the first document with that id. -/
def updateVoteOne : List VoteDoc → Nat → String → Nat → List VoteDoc
  | [], _, _, _ => []
  | v :: rest, i, vt, now =>
    if v.id == i then { v with vote_type := vt, updated_at := now } :: rest
    else v :: updateVoteOne rest i vt now

/-- insert_one on the votes collection.  The unique compound index on
(user_id, post_slug) declared in database.py makes the insert fail with
a duplicate-key error when a vote of the same pair is already stored. -/
def insertVote (votes : List VoteDoc) (d : VoteDoc) :
    Except MongoErr (List VoteDoc) :=
  if votes.any (fun v => v.user_id == d.user_id && v.post_slug == d.post_slug)
  then .error .duplicateKey
  else .ok (votes ++ [d])

/-- An error produced by a route handler: either an HTTPException raised
deliberately, or a database-driver error escaping uncaught. -/
inductive AppErr
  | http (e : HttpErr)
  | uncaught (e : MongoErr)
deriving DecidableEq, Repr

/-- submit_vote from routes/engagement.py.  The handler reads the caller's
existing vote with find_one and then writes (delete / update / insert).
The database state may change between the read and the write when a
concurrent request commits in between, so the two states are separate
parameters; a request that runs without interference has
readState = writeState.  The insert is not wrapped in any exception
handler, so a duplicate-key failure escapes uncaught. -/
def submit_vote (readState writeState : List VoteDoc) (cu : CurrentUser)
    (slug vote_type : String) (now freshId : Nat) :
    Except AppErr (List VoteDoc × VoteResponse) :=
  if vote_type != "up" && vote_type != "down" then
    .error (.http ⟨400, "Vote type must be up or down", none⟩)
  else
    match readState.find? (pairPred cu.id slug) with
    | some existing_vote =>
      if existing_vote.vote_type == vote_type then
        let votes' := deleteVoteOne writeState existing_vote.id
        .ok (votes', get_votes votes' slug (some cu))
      else
        let votes' := updateVoteOne writeState existing_vote.id vote_type now
        .ok (votes', get_votes votes' slug (some cu))
    | none =>
      match insertVote writeState (Vote.create_doc freshId cu.id slug vote_type now) with
      | .error e => .error (.uncaught e)
      | .ok votes' => .ok (votes', get_votes votes' slug (some cu))

/-- The abstract per-pair state of the vote state machine. -/
inductive VoteKind
  | up
  | down
deriving DecidableEq, Repr

/-- The string stored in the vote_type field for a kind. -/
def VoteKind.toStr : VoteKind → String
  | .up => "up"
  | .down => "down"

/-- The opposite vote kind. -/
def VoteKind.flip : VoteKind → VoteKind
  | .up => .down
  | .down => .up

/-- Per-pair state: no stored vote, or a stored vote of one kind. -/
inductive VoteState
  | noVote
  | voted (k : VoteKind)
deriving DecidableEq, Repr

/-- The state of one (user, slug) pair, read the way the handlers read it:
find_one with the pair filter, the vote_type field deciding the kind. -/
def voteState (votes : List VoteDoc) (uid : Nat) (slug : String) : VoteState :=
  match votes.find? (pairPred uid slug) with
  | none => .noVote
  | some v => if v.vote_type == "up" then .voted .up else .voted .down

/-- ACCESS_TOKEN_EXPIRE_MINUTES from routes/auth.py (24 hours). -/
def ACCESS_TOKEN_EXPIRE_MINUTES : Nat := 1440

/-- The claims carried by a JWT issued or accepted by this service: the
sub claim (a user id, absent in arbitrary third-party tokens) and the
absolute expiry in seconds. -/
structure TokenPayload where
  sub : Option Nat
  exp : Nat
deriving DecidableEq, Repr

/-- Injection of the optional sub claim into the signature input. -/
def subCode : Option Nat → Nat
  | none => 0
  | some n => n + 1

/-- The HMAC signature of the jose library, abstracted: any concrete
function of the server secret and the payload serves, since verification
only ever recomputes and compares it. -/
def signPayload (secret : Nat) (p : TokenPayload) : Nat :=
  secret * 1000003 + p.exp * 1009 + subCode p.sub

/-- A bearer token as presented by a client: either a string that does
not parse as a JWT at all, or a payload with a signature. -/
inductive BearerToken
  | malformed (raw : String)
  | signed (payload : TokenPayload) (sig : Nat)
deriving DecidableEq, Repr

/-- create_access_token from routes/auth.py: the sub claim carries the
user id and exp is fixed at now + ACCESS_TOKEN_EXPIRE_MINUTES minutes. -/
def create_access_token (secret now : Nat) (sub : Nat) : BearerToken :=
  .signed ⟨some sub, now + ACCESS_TOKEN_EXPIRE_MINUTES * 60⟩
    (signPayload secret ⟨some sub, now + ACCESS_TOKEN_EXPIRE_MINUTES * 60⟩)

/-- The failure modes of jwt.decode. -/
inductive JwtError
  | malformed
  | invalidSignature
  | expired
deriving DecidableEq, Repr

/-- jwt.decode of the jose library as called in get_current_user:
signature check, then expiry check; a token whose exp claim is strictly
in the past is rejected as expired, one whose exp claim equals the
current clock is still accepted. -/
def jwt_decode (secret clock : Nat) : BearerToken → Except JwtError TokenPayload
  | .malformed _ => .error .malformed
  | .signed p sig =>
    if sig != signPayload secret p then .error .invalidSignature
    else if p.exp < clock then .error .expired
    else .ok p

/-- get_current_user from routes/auth.py: returns none when no
credentials are attached, when jwt.decode raises (expired, bad
signature, malformed token), when the payload has no sub claim (this
also covers a sub that ObjectId cannot parse, caught by the blanket
except), or when no user with that id exists. -/
def get_current_user (secret clock : Nat) (users : List UserDoc)
    (credentials : Option BearerToken) : Option CurrentUser :=
  match credentials with
  | none => none
  | some token =>
    match jwt_decode secret clock token with
    | .error _ => none
    | .ok payload =>
      match payload.sub with
      | none => none
      | some user_id =>
        match users.find? (fun u => u.id == user_id) with
        | some user => some ⟨user.id, user.username, user.email, user.created_at⟩
        | none => none

/-- require_auth from routes/auth.py: a 401 with a WWW-Authenticate
Bearer challenge header whenever get_current_user yields none. -/
def require_auth (secret clock : Nat) (users : List UserDoc)
    (credentials : Option BearerToken) : Except HttpErr CurrentUser :=
  match get_current_user secret clock users credentials with
  | none => .error ⟨401, "Not authenticated", some "Bearer"⟩
  | some user => .ok user

/-- The user shape returned by the auth routes (UserResponse schema). -/
structure UserResponse where
  id : Nat
  username : String
  email : String
  created_at : Nat
deriving DecidableEq, Repr

/-- User.to_response from models/db_models.py. -/
def User.to_response (u : UserDoc) : UserResponse :=
  ⟨u.id, u.username, u.email, u.created_at⟩

/-- The Token schema returned by signup and signin. -/
structure TokenOut where
  access_token : BearerToken
  token_type : String
  user : UserResponse
deriving DecidableEq, Repr

/-- signin from routes/auth.py.  bcrypt.checkpw is abstracted as the
checkpw parameter.  Unknown email and wrong password produce the same
401 error with the same detail. -/
def signin (checkpw : String → String → Bool) (secret now : Nat)
    (users : List UserDoc) (email password : String) : Except HttpErr TokenOut :=
  match users.find? (fun u => u.email == email) with
  | none => .error ⟨401, "Invalid email or password", none⟩
  | some user =>
    if !(checkpw password user.hashed_password) then
      .error ⟨401, "Invalid email or password", none⟩
    else
      .ok ⟨create_access_token secret now user.id, "bearer", User.to_response user⟩

/-- signup from routes/auth.py: duplicate email checked first, then
duplicate username, both rejected with 400; otherwise the password hash
(bcrypt gensalt + hashpw, abstracted as the salted one-way hashpw
parameter) is stored with the new user, the created user is re-read by
id, and a token is issued for it.  Returns the resulting users
collection alongside the response. -/
def signup (hashpw : String → String) (secret now freshId : Nat)
    (users : List UserDoc) (username email password : String) :
    Except HttpErr (TokenOut × List UserDoc) :=
  if (users.find? (fun u => u.email == email)).isSome then
    .error ⟨400, "Email already registered", none⟩
  else if (users.find? (fun u => u.username == username)).isSome then
    .error ⟨400, "Username already taken", none⟩
  else
    let new_user_doc := User.create_doc freshId username email (hashpw password) now
    let users2 := users ++ [new_user_doc]
    match users2.find? (fun u => u.id == freshId) with
    | none => .error ⟨500, "Internal server error", none⟩
    | some created_user =>
      .ok (⟨create_access_token secret now created_user.id, "bearer",
            User.to_response created_user⟩, users2)

/-- The CommentResponse schema of the comment routes. -/
structure CommentResponse where
  id : Nat
  username : String
  text : String
  created_at : Nat
  is_own : Bool
deriving DecidableEq, Repr

/-- The sort key of get_comments: created_at descending (Mongo sort with
direction -1). -/
def commentSortLe (a b : CommentDoc) : Bool :=
  decide (b.created_at ≤ a.created_at)

/-- get_comments from routes/engagement.py: the comments of the slug,
newest first; each entry resolves its author by id, falling back to the
literal Unknown when the user record is gone, and is_own compares the
stored author id with the caller's id. -/
def get_comments (comments : List CommentDoc) (users : List UserDoc)
    (slug : String) (current_user : Option CurrentUser) : List CommentResponse :=
  let comment_docs := (comments.filter (fun c => c.post_slug == slug)).mergeSort commentSortLe
  comment_docs.map (fun c =>
    { id := c.id,
      username :=
        match users.find? (fun u => u.id == c.user_id) with
        | some u => u.username
        | none => "Unknown",
      text := c.text,
      created_at := c.created_at,
      is_own :=
        match current_user with
        | none => false
        | some cu => c.user_id == cu.id })

/-- delete_one on the comments collection filtered by id. -/
def deleteCommentOne : List CommentDoc → Nat → List CommentDoc
  | [], _ => []
  | c :: rest, i => if c.id == i then rest else c :: deleteCommentOne rest i

/-- delete_comment from routes/engagement.py.  comment_id = none models
an id string that ObjectId cannot parse: the try/except maps it to the
same 404 as an unknown id.  The slug path parameter is accepted but
never consulted. -/
def delete_comment (comments : List CommentDoc) (slug : String)
    (comment_id : Option Nat) (cu : CurrentUser) :
    Except HttpErr (List CommentDoc × String) :=
  match comment_id with
  | none => .error ⟨404, "Comment not found", none⟩
  | some i =>
    match comments.find? (fun c => c.id == i) with
    | none => .error ⟨404, "Comment not found", none⟩
    | some comment =>
      if comment.user_id != cu.id then
        .error ⟨403, "You can only delete your own comments", none⟩
      else
        .ok (deleteCommentOne comments i, "Comment deleted")

/-- Decidable equality for results, so that concrete runs of the
operations can be checked by decide. -/
instance {ε α : Type} [DecidableEq ε] [DecidableEq α] :
    DecidableEq (Except ε α) := fun a b =>
  match a, b with
  | .error e, .error e' =>
    if h : e = e' then .isTrue (by rw [h]) else .isFalse (by simp [h])
  | .error _, .ok _ => .isFalse (by simp)
  | .ok _, .error _ => .isFalse (by simp)
  | .ok v, .ok v' =>
    if h : v = v' then .isTrue (by rw [h]) else .isFalse (by simp [h])

/-- find_one returns the head of the filtered list. -/
theorem find?_eq_head?_filter {α : Type} (p : α → Bool) (l : List α) :
    l.find? p = (l.filter p).head? := by
  induction l with
  | nil => rfl
  | cons a t ih =>
    cases h : p a with
    | true =>
      rw [List.find?_cons_of_pos t h, List.filter_cons_of_pos h, List.head?_cons]
    | false =>
      rw [List.find?_cons_of_neg t (by simp [h]),
        List.filter_cons_of_neg (by simp [h]), ih]

/-- When a collection holds at most one document matching a filter and
find_one returns one, the filter yields exactly that document. -/
theorem filter_eq_singleton_of_find? {α : Type} {p : α → Bool} {l : List α}
    {ev : α} (h : l.find? p = some ev) (hlen : (l.filter p).length ≤ 1) :
    l.filter p = [ev] := by
  rw [find?_eq_head?_filter] at h
  cases hfl : l.filter p with
  | nil => rw [hfl] at h; simp at h
  | cons a t =>
    rw [hfl] at h hlen
    simp only [List.head?_cons, Option.some.injEq] at h
    have ht : t = [] := by
      apply List.eq_nil_of_length_eq_zero
      simp only [List.length_cons] at hlen
      omega
    rw [ht, h]

/-- Deleting by id the unique document matching a filter empties the
filter, provided document ids are unique. -/
theorem filter_deleteVoteOne_of_singleton {p : VoteDoc → Bool}
    {l : List VoteDoc} {ev : VoteDoc}
    (hnd : (l.map VoteDoc.id).Nodup) (hl : l.filter p = [ev]) :
    (deleteVoteOne l ev.id).filter p = [] := by
  induction l with
  | nil => simp at hl
  | cons v rest ih =>
    rw [List.map_cons, List.nodup_cons] at hnd
    obtain ⟨hvid, hndr⟩ := hnd
    rw [List.filter_cons] at hl
    by_cases hp : p v = true
    · rw [if_pos hp] at hl
      obtain ⟨hv, hrest⟩ := List.cons_eq_cons.mp hl
      subst hv
      simp [deleteVoteOne, hrest]
    · rw [if_neg hp] at hl
      have hevm : ev ∈ rest := (List.mem_filter.mp (by rw [hl]; simp)).1
      have hneq : (v.id == ev.id) = false := by
        rcases Bool.eq_false_or_eq_true (v.id == ev.id) with h | h
        · exfalso
          apply hvid
          have hid : v.id = ev.id := by simpa using h
          rw [hid]
          exact List.mem_map.mpr ⟨ev, hevm, rfl⟩
        · exact h
      have hdel : deleteVoteOne (v :: rest) ev.id = v :: deleteVoteOne rest ev.id := by
        simp [deleteVoteOne, hneq]
      rw [hdel, List.filter_cons, if_neg hp]
      exact ih hndr hl

/-- Rewriting by id the unique document matching a filter leaves exactly
the rewritten document in the filter, provided ids are unique and the
rewritten document still matches. -/
theorem filter_updateVoteOne_of_singleton {p : VoteDoc → Bool}
    {l : List VoteDoc} {ev : VoteDoc} {vt : String} {now : Nat}
    (hnd : (l.map VoteDoc.id).Nodup) (hl : l.filter p = [ev])
    (hpu : p { ev with vote_type := vt, updated_at := now } = true) :
    (updateVoteOne l ev.id vt now).filter p =
      [{ ev with vote_type := vt, updated_at := now }] := by
  induction l with
  | nil => simp at hl
  | cons v rest ih =>
    rw [List.map_cons, List.nodup_cons] at hnd
    obtain ⟨hvid, hndr⟩ := hnd
    rw [List.filter_cons] at hl
    by_cases hp : p v = true
    · rw [if_pos hp] at hl
      obtain ⟨hv, hrest⟩ := List.cons_eq_cons.mp hl
      subst hv
      simp [updateVoteOne, List.filter_cons, hpu, hrest]
    · rw [if_neg hp] at hl
      have hevm : ev ∈ rest := (List.mem_filter.mp (by rw [hl]; simp)).1
      have hneq : (v.id == ev.id) = false := by
        rcases Bool.eq_false_or_eq_true (v.id == ev.id) with h | h
        · exfalso
          apply hvid
          have hid : v.id = ev.id := by simpa using h
          rw [hid]
          exact List.mem_map.mpr ⟨ev, hevm, rfl⟩
        · exact h
      have hupd : updateVoteOne (v :: rest) ev.id vt now =
          v :: updateVoteOne rest ev.id vt now := by
        simp [updateVoteOne, hneq]
      rw [hupd, List.filter_cons, if_neg hp]
      exact ih hndr hl

/-- C1: for every (user, post slug) pair, submitting a vote follows the
three-state machine over noVote / up / down: with no stored vote the
submit inserts a vote of the submitted kind; with a stored vote of the
same kind it deletes it (toggle off); with a stored vote of the opposite
kind it updates that row in place to the new kind and refreshes its
updated timestamp, leaving exactly one row for the pair.  The hypotheses
are the database invariants: unique document ids, at most one row per
(user, slug) pair (the unique compound index), and valid stored
vote_type fields. -/
theorem C1_submit_vote_state_machine
    (votes : List VoteDoc) (cu : CurrentUser) (slug : String) (k : VoteKind)
    (now freshId : Nat)
    (hids : (votes.map VoteDoc.id).Nodup)
    (hinv : (votesFor votes cu.id slug).length ≤ 1)
    (hwf : ∀ v ∈ votes, v.vote_type = "up" ∨ v.vote_type = "down") :
    ∃ votes' resp,
      submit_vote votes votes cu slug k.toStr now freshId = .ok (votes', resp) ∧
      (voteState votes cu.id slug = .noVote →
        votesFor votes' cu.id slug =
          [Vote.create_doc freshId cu.id slug k.toStr now] ∧
        voteState votes' cu.id slug = .voted k) ∧
      (voteState votes cu.id slug = .voted k →
        votesFor votes' cu.id slug = [] ∧
        voteState votes' cu.id slug = .noVote) ∧
      (voteState votes cu.id slug = .voted k.flip →
        ∃ ev, votes.find? (pairPred cu.id slug) = some ev ∧
          votesFor votes' cu.id slug =
            [{ ev with vote_type := k.toStr, updated_at := now }] ∧
          voteState votes' cu.id slug = .voted k) := by
  have hguard : (k.toStr != "up" && k.toStr != "down") = false := by
    cases k <;> simp [VoteKind.toStr]
  simp only [votesFor] at hinv
  cases hfind : votes.find? (pairPred cu.id slug) with
  | none =>
    set d := Vote.create_doc freshId cu.id slug k.toStr now with hd
    have hstate : voteState votes cu.id slug = .noVote := by
      simp [voteState, hfind]
    have hnone := List.find?_eq_none.mp hfind
    have hfil : votes.filter (pairPred cu.id slug) = [] := by
      rw [List.filter_eq_nil_iff]; exact hnone
    have hany : (votes.any
        (fun v => v.user_id == d.user_id && v.post_slug == d.post_slug)) = false := by
      rw [← Bool.not_eq_true, List.any_eq_true]
      rintro ⟨v, hv, hpv⟩
      apply hnone v hv
      simp only [hd, Vote.create_doc, Bool.and_eq_true, beq_iff_eq] at hpv
      simp [pairPred, hpv.1, hpv.2]
    have hins : insertVote votes d = .ok (votes ++ [d]) := by
      rw [insertVote, hany]
      rfl
    have hsubmit : submit_vote votes votes cu slug k.toStr now freshId =
        .ok (votes ++ [d], get_votes (votes ++ [d]) slug (some cu)) := by
      simp [submit_vote, hguard, hfind, hins]
    have hpd : pairPred cu.id slug d = true := by
      simp [pairPred, hd, Vote.create_doc]
    have hfil' : (votes ++ [d]).filter (pairPred cu.id slug) = [d] := by
      rw [List.filter_append, hfil, List.nil_append, List.filter_cons, if_pos hpd]
      rfl
    refine ⟨votes ++ [d], _, hsubmit, ?_, ?_, ?_⟩
    · intro _
      refine ⟨by rw [votesFor, hfil'], ?_⟩
      rw [voteState, find?_eq_head?_filter, hfil', List.head?_cons]
      cases k <;> simp [hd, Vote.create_doc, VoteKind.toStr]
    · intro h
      rw [hstate] at h
      exact VoteState.noConfusion h
    · intro h
      rw [hstate] at h
      exact VoteState.noConfusion h
  | some ev =>
    have hevm : ev ∈ votes := List.mem_of_find?_eq_some hfind
    have hsingle : votes.filter (pairPred cu.id slug) = [ev] :=
      filter_eq_singleton_of_find? hfind hinv
    have hpe : pairPred cu.id slug ev = true := List.find?_some hfind
    by_cases hbr : ev.vote_type = k.toStr
    · have hbeq : (ev.vote_type == k.toStr) = true := by simp [hbr]
      have hsubmit : submit_vote votes votes cu slug k.toStr now freshId =
          .ok (deleteVoteOne votes ev.id,
               get_votes (deleteVoteOne votes ev.id) slug (some cu)) := by
        simp [submit_vote, hguard, hfind, hbeq]
      have hfil' : (deleteVoteOne votes ev.id).filter (pairPred cu.id slug) = [] :=
        filter_deleteVoteOne_of_singleton hids hsingle
      refine ⟨_, _, hsubmit, ?_, ?_, ?_⟩
      · intro h
        simp only [voteState, hfind] at h
        cases hup : (ev.vote_type == "up") <;> rw [hup] at h <;> simp at h
      · intro _
        refine ⟨by rw [votesFor, hfil'], ?_⟩
        simp [voteState, find?_eq_head?_filter, hfil']
      · intro h
        exfalso
        simp only [voteState, hfind] at h
        cases k with
        | up =>
          rw [hbr] at h
          simp [VoteKind.toStr, VoteKind.flip] at h
        | down =>
          rw [hbr] at h
          simp [VoteKind.toStr, VoteKind.flip] at h
    · have hbeq : (ev.vote_type == k.toStr) = false := by simp [hbr]
      have hpu : pairPred cu.id slug
          { ev with vote_type := k.toStr, updated_at := now } = true := by
        simp only [pairPred] at hpe ⊢
        simpa using hpe
      have hfil' : (updateVoteOne votes ev.id k.toStr now).filter
          (pairPred cu.id slug) =
          [{ ev with vote_type := k.toStr, updated_at := now }] :=
        filter_updateVoteOne_of_singleton hids hsingle hpu
      have hsubmit : submit_vote votes votes cu slug k.toStr now freshId =
          .ok (updateVoteOne votes ev.id k.toStr now,
               get_votes (updateVoteOne votes ev.id k.toStr now) slug (some cu)) := by
        simp [submit_vote, hguard, hfind, hbeq]
      refine ⟨_, _, hsubmit, ?_, ?_, ?_⟩
      · intro h
        simp only [voteState, hfind] at h
        cases hup : (ev.vote_type == "up") <;> rw [hup] at h <;> simp at h
      · intro h
        exfalso
        simp only [voteState, hfind] at h
        cases k with
        | up =>
          rcases hwf ev hevm with he | he
          · exact hbr he
          · rw [he] at h
            simp [VoteKind.toStr] at h
        | down =>
          rcases hwf ev hevm with he | he
          · rw [he] at h
            simp [VoteKind.toStr] at h
          · exact hbr he
      · intro _
        refine ⟨ev, rfl, by rw [votesFor, hfil'], ?_⟩
        rw [voteState, find?_eq_head?_filter, hfil', List.head?_cons]
        cases k <;> simp [VoteKind.toStr]

/-- Witness for C1 at a concrete state: user 1 has an up vote on p1 and
submits up again; the vote is removed (toggle off to noVote). -/
theorem C1_submit_vote_state_machine_witness :
    ((([⟨5, 1, "p1", "up", 0, 0⟩] : List VoteDoc).map VoteDoc.id).Nodup) ∧
    ∃ votes' resp,
      submit_vote [⟨5, 1, "p1", "up", 0, 0⟩] [⟨5, 1, "p1", "up", 0, 0⟩]
          ⟨1, "alice", "a@x.com", 0⟩ "p1" VoteKind.up.toStr 9 6 =
        .ok (votes', resp) ∧
      votesFor votes' 1 "p1" = [] ∧ voteState votes' 1 "p1" = .noVote := by
  refine ⟨by decide, ?_⟩
  obtain ⟨votes', resp, hok, -, h2, -⟩ :=
    C1_submit_vote_state_machine [⟨5, 1, "p1", "up", 0, 0⟩]
      ⟨1, "alice", "a@x.com", 0⟩ "p1" .up 9 6 (by decide) (by decide) (by decide)
  exact ⟨votes', resp, hok, h2 (by decide)⟩

/-- C2: the spec requires submit to catch a duplicate-key violation of
the (user, slug) unique index and retry the read-modify-write once; the
code has no handler around the insert, so when a concurrent submit
commits a vote for the pair between the find_one and the insert_one, the
duplicate-key failure escapes to the caller uncaught.  Here user 1 reads
an empty state, a concurrent request inserts an up vote for (1, p1), and
the down submit then dies on the unique index instead of retrying. -/
theorem C2_duplicate_key_escapes_uncaught :
    submit_vote [] [⟨9, 1, "p1", "up", 5, 5⟩] ⟨1, "alice", "a@x.com", 0⟩
      "p1" "down" 7 10 = .error (.uncaught .duplicateKey) := by decide

/-- Splitting a conjunctive filter into two passes. -/
theorem filter_and_eq_filter_filter {α : Type} (l : List α) (p q : α → Bool) :
    l.filter (fun a => p a && q a) = (l.filter p).filter q := by
  induction l with
  | nil => rfl
  | cons a t ih =>
    by_cases hp : p a = true
    · by_cases hq : q a = true
      · simp [List.filter_cons, hp, hq, ih]
      · simp [List.filter_cons, hp, hq, ih]
    · simp [List.filter_cons, hp, ih]

/-- Every vote on a slug is an up vote or a down vote, so the two counts
partition the slug's votes. -/
theorem length_filter_up_add_down (votes : List VoteDoc) (slug : String)
    (hwf : ∀ v ∈ votes, v.vote_type = "up" ∨ v.vote_type = "down") :
    (votes.filter (fun v => v.post_slug == slug && v.vote_type == "up")).length +
      (votes.filter (fun v => v.post_slug == slug && v.vote_type == "down")).length =
      (votes.filter (fun v => v.post_slug == slug)).length := by
  have hud : (("up" : String) == "down") = false := by decide
  have hdu : (("down" : String) == "up") = false := by decide
  induction votes with
  | nil => rfl
  | cons v t ih =>
    have ih' := ih (fun x hx => hwf x (List.mem_cons_of_mem _ hx))
    rcases hwf v (List.mem_cons_self _ _) with hv | hv <;>
      by_cases hs : (v.post_slug == slug) = true <;>
        simp [List.filter_cons, hs, hv, hud, hdu] <;> omega

/-- C3: get_votes returns the number of up votes and down votes for the
slug across all users (the two counts partition the slug's votes), and
the caller's own vote kind, which is none for an unauthenticated caller
or when the caller holds no vote on the slug, and the stored kind
otherwise. -/
theorem C3_get_votes_counts (votes : List VoteDoc) (slug : String)
    (cur : Option CurrentUser)
    (hwf : ∀ v ∈ votes, v.vote_type = "up" ∨ v.vote_type = "down") :
    (get_votes votes slug cur).upvotes =
      ((votes.filter (fun v => v.post_slug == slug)).filter
        (fun v => v.vote_type == "up")).length ∧
    (get_votes votes slug cur).downvotes =
      ((votes.filter (fun v => v.post_slug == slug)).filter
        (fun v => v.vote_type == "down")).length ∧
    (get_votes votes slug cur).upvotes + (get_votes votes slug cur).downvotes =
      (votes.filter (fun v => v.post_slug == slug)).length ∧
    (cur = none → (get_votes votes slug cur).user_vote = none) ∧
    (∀ cu, cur = some cu →
      (voteState votes cu.id slug = .noVote →
        (get_votes votes slug cur).user_vote = none) ∧
      (∀ k, voteState votes cu.id slug = .voted k →
        (get_votes votes slug cur).user_vote = some k.toStr)) := by
  refine ⟨?_, ?_, ?_, ?_, ?_⟩
  · simp only [get_votes]
    rw [← filter_and_eq_filter_filter votes (fun v => v.post_slug == slug)
      (fun v => v.vote_type == "up")]
  · simp only [get_votes]
    rw [← filter_and_eq_filter_filter votes (fun v => v.post_slug == slug)
      (fun v => v.vote_type == "down")]
  · simp only [get_votes]
    exact length_filter_up_add_down votes slug hwf
  · intro h
    simp [get_votes, h]
  · intro cu hcur
    subst hcur
    cases hf : votes.find? (pairPred cu.id slug) with
    | none =>
      constructor
      · intro _
        simp [get_votes, hf]
      · intro k hk
        simp [voteState, hf] at hk
    | some v =>
      have hvm : v ∈ votes := List.mem_of_find?_eq_some hf
      constructor
      · intro h
        simp only [voteState, hf] at h
        cases hup : (v.vote_type == "up") <;> rw [hup] at h <;> simp at h
      · intro k hk
        simp only [voteState, hf] at hk
        have hv : (get_votes votes slug (some cu)).user_vote = some v.vote_type := by
          simp [get_votes, hf]
        rw [hv]
        rcases hwf v hvm with he | he <;> rw [he] at hk <;> cases k <;>
          simp [VoteKind.toStr] at hk ⊢ <;> simp [he]

/-- Witness for C3: two distinct users vote up and a third votes down on
p1; the counts are upvotes 2 and downvotes 1, they partition the three
votes on the slug, and the third caller sees their own down vote. -/
theorem C3_get_votes_counts_witness :
    get_votes
        [⟨1, 1, "p1", "up", 0, 0⟩, ⟨2, 2, "p1", "up", 0, 0⟩,
         ⟨3, 3, "p1", "down", 0, 0⟩] "p1" (some ⟨3, "carol", "c@x.com", 0⟩) =
      { upvotes := 2, downvotes := 1, user_vote := some "down" } ∧
    (get_votes
        [⟨1, 1, "p1", "up", 0, 0⟩, ⟨2, 2, "p1", "up", 0, 0⟩,
         ⟨3, 3, "p1", "down", 0, 0⟩] "p1" (some ⟨3, "carol", "c@x.com", 0⟩)).upvotes +
      (get_votes
        [⟨1, 1, "p1", "up", 0, 0⟩, ⟨2, 2, "p1", "up", 0, 0⟩,
         ⟨3, 3, "p1", "down", 0, 0⟩] "p1" (some ⟨3, "carol", "c@x.com", 0⟩)).downvotes =
      (([⟨1, 1, "p1", "up", 0, 0⟩, ⟨2, 2, "p1", "up", 0, 0⟩,
         ⟨3, 3, "p1", "down", 0, 0⟩] : List VoteDoc).filter
        (fun v => v.post_slug == "p1")).length := by
  refine ⟨by decide, ?_⟩
  exact (C3_get_votes_counts
    [⟨1, 1, "p1", "up", 0, 0⟩, ⟨2, 2, "p1", "up", 0, 0⟩, ⟨3, 3, "p1", "down", 0, 0⟩]
    "p1" (some ⟨3, "carol", "c@x.com", 0⟩) (by decide)).2.2.1

/-- C4: a token issued for a user embeds the user id in the sub claim and
an absolute expiry 1440 minutes after issuance; verification succeeds
with that same payload at any clock up to the expiry and fails with
Expired once the clock exceeds it. -/
theorem C4_token_lifecycle (secret now uid clock : Nat) :
    (clock ≤ now + ACCESS_TOKEN_EXPIRE_MINUTES * 60 →
      jwt_decode secret clock (create_access_token secret now uid) =
        .ok ⟨some uid, now + ACCESS_TOKEN_EXPIRE_MINUTES * 60⟩) ∧
    (now + ACCESS_TOKEN_EXPIRE_MINUTES * 60 < clock →
      jwt_decode secret clock (create_access_token secret now uid) =
        .error .expired) := by
  constructor
  · intro h
    have hlt : ¬(now + ACCESS_TOKEN_EXPIRE_MINUTES * 60 < clock) := by omega
    simp [jwt_decode, create_access_token, hlt]
  · intro h
    simp [jwt_decode, create_access_token, h]

/-- Witness for C4: a token issued at time 0 verifies at the last valid
second 86400 (= 1440 minutes) and is expired one second later. -/
theorem C4_token_lifecycle_witness :
    jwt_decode 0 86400 (create_access_token 0 0 7) = .ok ⟨some 7, 86400⟩ ∧
    jwt_decode 0 86401 (create_access_token 0 0 7) = .error .expired :=
  ⟨(C4_token_lifecycle 0 0 7 86400).1 (by decide),
   (C4_token_lifecycle 0 0 7 86401).2 (by decide)⟩

/-- C5: signin fails with one and the same 401 error, of identical shape,
whether the email is unknown or the email exists and the password does
not check against its stored hash, so the two causes are
indistinguishable to the caller. -/
theorem C5_signin_uniform_error (checkpw : String → String → Bool)
    (secret now : Nat) (users : List UserDoc)
    (email1 password1 email2 password2 : String) (u : UserDoc)
    (h1 : users.find? (fun x => x.email == email1) = none)
    (h2 : users.find? (fun x => x.email == email2) = some u)
    (h3 : checkpw password2 u.hashed_password = false) :
    signin checkpw secret now users email1 password1 =
      .error ⟨401, "Invalid email or password", none⟩ ∧
    signin checkpw secret now users email2 password2 =
      .error ⟨401, "Invalid email or password", none⟩ ∧
    signin checkpw secret now users email1 password1 =
      signin checkpw secret now users email2 password2 := by
  have e1 : signin checkpw secret now users email1 password1 =
      .error ⟨401, "Invalid email or password", none⟩ := by
    simp [signin, h1]
  have e2 : signin checkpw secret now users email2 password2 =
      .error ⟨401, "Invalid email or password", none⟩ := by
    simp [signin, h2, h3]
  exact ⟨e1, e2, e1.trans e2.symm⟩

/-- Witness for C5: one stored user; a nonexistent email and the right
email with a wrong password produce the identical 401 error. -/
theorem C5_signin_uniform_error_witness :
    signin (fun p h => p == "secret1" && h == "HASH") 0 0
        [⟨1, "alice", "a@x.com", "HASH", 0⟩] "b@x.com" "whatever" =
      .error ⟨401, "Invalid email or password", none⟩ ∧
    signin (fun p h => p == "secret1" && h == "HASH") 0 0
        [⟨1, "alice", "a@x.com", "HASH", 0⟩] "a@x.com" "wrong" =
      .error ⟨401, "Invalid email or password", none⟩ ∧
    signin (fun p h => p == "secret1" && h == "HASH") 0 0
        [⟨1, "alice", "a@x.com", "HASH", 0⟩] "b@x.com" "whatever" =
      signin (fun p h => p == "secret1" && h == "HASH") 0 0
        [⟨1, "alice", "a@x.com", "HASH", 0⟩] "a@x.com" "wrong" :=
  C5_signin_uniform_error (fun p h => p == "secret1" && h == "HASH") 0 0
    [⟨1, "alice", "a@x.com", "HASH", 0⟩] "b@x.com" "whatever" "a@x.com" "wrong"
    ⟨1, "alice", "a@x.com", "HASH", 0⟩ (by decide) (by decide) (by decide)

/-- With unique ids, deleting the first document with an id removes
every document with that id. -/
theorem deleteCommentOne_eq_filter (l : List CommentDoc) (i : Nat)
    (hnd : (l.map CommentDoc.id).Nodup) :
    deleteCommentOne l i = l.filter (fun c => !(c.id == i)) := by
  induction l with
  | nil => rfl
  | cons c t ih =>
    rw [List.map_cons, List.nodup_cons] at hnd
    obtain ⟨hcid, hndt⟩ := hnd
    by_cases h : (c.id == i) = true
    · have hall : t.filter (fun x => !(x.id == i)) = t := by
        rw [List.filter_eq_self]
        intro x hx
        rcases Bool.eq_false_or_eq_true (x.id == i) with hb | hb
        · exfalso
          apply hcid
          have h1 : c.id = i := by simpa using h
          have h2 : x.id = i := by simpa using hb
          rw [h1, ← h2]
          exact List.mem_map.mpr ⟨x, hx, rfl⟩
        · simp [hb]
      simp [deleteCommentOne, h, List.filter_cons, hall]
    · simp [deleteCommentOne, h, List.filter_cons, ih hndt]

/-- C6: comment deletion is gated by exactly two checks in order: a 404
when no comment with the identifier exists, then a 403 when the comment
exists but its author differs from the caller; otherwise the comment is
deleted and no longer appears in any listing. -/
theorem C6_delete_comment_gating (comments : List CommentDoc) (slug : String)
    (i : Nat) (cu : CurrentUser)
    (hids : (comments.map CommentDoc.id).Nodup) :
    (comments.find? (fun c => c.id == i) = none →
      delete_comment comments slug (some i) cu =
        .error ⟨404, "Comment not found", none⟩) ∧
    (∀ c, comments.find? (fun c => c.id == i) = some c → c.user_id ≠ cu.id →
      delete_comment comments slug (some i) cu =
        .error ⟨403, "You can only delete your own comments", none⟩) ∧
    (∀ c, comments.find? (fun c => c.id == i) = some c → c.user_id = cu.id →
      ∃ rest,
        delete_comment comments slug (some i) cu = .ok (rest, "Comment deleted") ∧
        rest.find? (fun c => c.id == i) = none ∧
        ∀ users slug2 viewer, ∀ r ∈ get_comments rest users slug2 viewer,
          r.id ≠ i) := by
  refine ⟨?_, ?_, ?_⟩
  · intro h
    simp [delete_comment, h]
  · intro c hc hne
    have hb : (c.user_id != cu.id) = true := by simp [hne]
    simp [delete_comment, hc, hb]
  · intro c hc heq
    have hb : (c.user_id != cu.id) = false := by simp [heq]
    have hfil := deleteCommentOne_eq_filter comments i hids
    refine ⟨deleteCommentOne comments i, by simp [delete_comment, hc, hb], ?_, ?_⟩
    · rw [hfil, List.find?_eq_none]
      intro x hx
      have := (List.mem_filter.mp hx).2
      simpa using this
    · intro users slug2 viewer r hr
      simp only [get_comments, List.mem_map] at hr
      obtain ⟨cdoc, hcd, hrfl⟩ := hr
      rw [List.mem_mergeSort] at hcd
      have hcd2 : cdoc ∈ deleteCommentOne comments i := (List.mem_filter.mp hcd).1
      rw [hfil] at hcd2
      have hne2 : (cdoc.id == i) = false := by
        simpa using (List.mem_filter.mp hcd2).2
      rw [← hrfl]
      intro habs
      rw [show ((fun c => (⟨c.id, _, c.text, c.created_at, _⟩ : CommentResponse)) cdoc).id
        = cdoc.id from rfl] at habs
      simp [habs] at hne2

/-- Witness for C6: the author deletes their only comment; the deletion
succeeds and the comment is gone from every listing. -/
theorem C6_delete_comment_gating_witness :
    ∃ rest,
      delete_comment [⟨7, 1, "p1", "hi", 0⟩] "p1" (some 7)
          ⟨1, "alice", "a@x.com", 0⟩ = .ok (rest, "Comment deleted") ∧
      rest.find? (fun c => c.id == 7) = none ∧
      ∀ users slug2 viewer, ∀ r ∈ get_comments rest users slug2 viewer,
        r.id ≠ 7 :=
  (C6_delete_comment_gating [⟨7, 1, "p1", "hi", 0⟩] "p1" 7
      ⟨1, "alice", "a@x.com", 0⟩ (by decide)).2.2
    ⟨7, 1, "p1", "hi", 0⟩ (by decide) (by decide)

/-- C7: signup rejects with a 400 whenever the username or the email is
already stored (comparison by the stored value, case sensitive), and
otherwise persists the new user with the hashed password and issues a
token for the fresh id. -/
theorem C7_signup_duplicate_rejection (hashpw : String → String)
    (secret now freshId : Nat) (users : List UserDoc)
    (username email password : String) :
    ((∃ u ∈ users, u.email = email ∨ u.username = username) →
      ∃ detail, signup hashpw secret now freshId users username email password =
        .error ⟨400, detail, none⟩) ∧
    (freshId ∉ users.map UserDoc.id →
      (∀ u ∈ users, u.email ≠ email ∧ u.username ≠ username) →
      signup hashpw secret now freshId users username email password =
        .ok (⟨create_access_token secret now freshId, "bearer",
              ⟨freshId, username, email, now⟩⟩,
             users ++ [User.create_doc freshId username email (hashpw password) now])) := by
  constructor
  · rintro ⟨u, hu, hcase⟩
    by_cases he : (users.find? (fun x => x.email == email)).isSome = true
    · exact ⟨"Email already registered", by simp [signup, he]⟩
    · have hne : ∀ x ∈ users, x.email ≠ email := by
        intro x hx heq
        apply he
        rw [List.find?_isSome]
        exact ⟨x, hx, by simp [heq]⟩
      rcases hcase with hmail | hname
      · exact absurd hmail (hne u hu)
      · have hn : (users.find? (fun x => x.username == username)).isSome = true := by
          rw [List.find?_isSome]
          exact ⟨u, hu, by simp [hname]⟩
        exact ⟨"Username already taken", by simp [signup, he, hn]⟩
  · intro hfresh hnone
    have he : ¬((users.find? (fun x => x.email == email)).isSome = true) := by
      rw [List.find?_isSome]
      rintro ⟨x, hx, hbx⟩
      exact (hnone x hx).1 (by simpa using hbx)
    have hn : ¬((users.find? (fun x => x.username == username)).isSome = true) := by
      rw [List.find?_isSome]
      rintro ⟨x, hx, hbx⟩
      exact (hnone x hx).2 (by simpa using hbx)
    have hfu : users.find? (fun u => u.id == freshId) = none := by
      rw [List.find?_eq_none]
      intro a ha hba
      exact hfresh (List.mem_map.mpr ⟨a, ha, by simpa using hba⟩)
    simp [signup, he, hn, hfu, User.create_doc, User.to_response]

/-- Witness for C7: with alice already registered under a@x.com, a second
registration under the same email and a different username fails with a
400; a first registration into an empty store succeeds and persists the
hashed password. -/
theorem C7_signup_duplicate_rejection_witness :
    (∃ detail,
      signup (fun p => "h:" ++ p) 0 0 2
          [⟨1, "alice", "a@x.com", "h:pw1", 0⟩] "bob" "a@x.com" "pw2" =
        .error ⟨400, detail, none⟩) ∧
    signup (fun p => "h:" ++ p) 0 0 1 [] "alice" "a@x.com" "pw1" =
      .ok (⟨create_access_token 0 0 1, "bearer", ⟨1, "alice", "a@x.com", 0⟩⟩,
           [⟨1, "alice", "a@x.com", "h:pw1", 0⟩]) := by
  constructor
  · exact (C7_signup_duplicate_rejection (fun p => "h:" ++ p) 0 0 2
      [⟨1, "alice", "a@x.com", "h:pw1", 0⟩] "bob" "a@x.com" "pw2").1
      ⟨⟨1, "alice", "a@x.com", "h:pw1", 0⟩, by simp, Or.inl rfl⟩
  · exact (C7_signup_duplicate_rejection (fun p => "h:" ++ p) 0 0 1
      [] "alice" "a@x.com" "pw1").2 (by simp) (by simp)

/-- C8: on any token-verification failure (missing, malformed, bad
signature, or expired token), get_current_user yields none, so the
optional-auth routes (vote counts, comment listing) run exactly as for
an anonymous caller, while require_auth, the gate of the required-auth
routes, fails with the single 401 Not authenticated error carrying the
WWW-Authenticate Bearer challenge header; no other error surfaces. -/
theorem C8_auth_failure_handling (secret clock : Nat) (users : List UserDoc)
    (cred : Option BearerToken)
    (h : cred = none ∨
      ∃ tok e, cred = some tok ∧ jwt_decode secret clock tok = .error e) :
    get_current_user secret clock users cred = none ∧
    require_auth secret clock users cred =
      .error ⟨401, "Not authenticated", some "Bearer"⟩ ∧
    (∀ votes slug,
      get_votes votes slug (get_current_user secret clock users cred) =
        get_votes votes slug none) ∧
    (∀ comments slug,
      get_comments comments users slug (get_current_user secret clock users cred) =
        get_comments comments users slug none) := by
  have hnone : get_current_user secret clock users cred = none := by
    rcases h with h | ⟨tok, e, hc, hd⟩
    · simp [get_current_user, h]
    · simp [get_current_user, hc, hd]
  exact ⟨hnone, by simp [require_auth, hnone],
    fun votes slug => by rw [hnone], fun comments slug => by rw [hnone]⟩

/-- Witness for C8 at a malformed bearer token. -/
theorem C8_auth_failure_handling_witness :
    get_current_user 5 0 [] (some (.malformed "garbage")) = none ∧
    require_auth 5 0 [] (some (.malformed "garbage")) =
      .error ⟨401, "Not authenticated", some "Bearer"⟩ ∧
    (∀ votes slug,
      get_votes votes slug (get_current_user 5 0 [] (some (.malformed "garbage"))) =
        get_votes votes slug none) ∧
    (∀ comments slug,
      get_comments comments [] slug
          (get_current_user 5 0 [] (some (.malformed "garbage"))) =
        get_comments comments [] slug none) :=
  C8_auth_failure_handling 5 0 [] (some (.malformed "garbage"))
    (Or.inr ⟨.malformed "garbage", .malformed, rfl, rfl⟩)

/-- C9: deletion never consults the slug path parameter: for any two
slugs the outcome and the state change are identical, so an author can
delete their comment through a URL naming a different post. -/
theorem C9_delete_comment_slug_independent (comments : List CommentDoc)
    (slug1 slug2 : String) (comment_id : Option Nat) (cu : CurrentUser) :
    delete_comment comments slug1 comment_id cu =
      delete_comment comments slug2 comment_id cu := rfl

/-- C10: a comment whose referenced author no longer exists is still
listed, with its username field set to Unknown and its is_own flag
computed from the stored author identifier. -/
theorem C10_get_comments_dangling_author (comments : List CommentDoc)
    (users : List UserDoc) (slug : String) (cur : Option CurrentUser)
    (c : CommentDoc) (hc : c ∈ comments) (hslug : c.post_slug = slug)
    (hu : users.find? (fun u => u.id == c.user_id) = none) :
    ∃ r ∈ get_comments comments users slug cur,
      r.id = c.id ∧ r.text = c.text ∧ r.username = "Unknown" ∧
      r.is_own = (match cur with
        | none => false
        | some cu => c.user_id == cu.id) := by
  refine ⟨_, List.mem_map.mpr ⟨c, ?_, rfl⟩, ?_, ?_, ?_, ?_⟩
  · rw [List.mem_mergeSort, List.mem_filter]
    exact ⟨hc, by simp [hslug]⟩
  · rfl
  · rfl
  · show (match users.find? (fun u => u.id == c.user_id) with
      | some u => u.username
      | none => "Unknown") = "Unknown"
    rw [hu]
  · rfl

/-- Witness for C10: a comment by the vanished user 9 is still listed
for viewer 2, with username Unknown and is_own false. -/
theorem C10_get_comments_dangling_author_witness :
    ∃ r ∈ get_comments [⟨3, 9, "p1", "hello", 0⟩] [] "p1"
        (some ⟨2, "bob", "b@x.com", 0⟩),
      r.id = 3 ∧ r.text = "hello" ∧ r.username = "Unknown" ∧
      r.is_own = ((9 : Nat) == 2) :=
  C10_get_comments_dangling_author [⟨3, 9, "p1", "hello", 0⟩] [] "p1"
    (some ⟨2, "bob", "b@x.com", 0⟩) ⟨3, 9, "p1", "hello", 0⟩
    (by simp) rfl rfl
